import Mathlib

/-!
Verification development for the query scope tree of the `edgedb` repository.

The embedding models `src/edb/ir/scopetree.py` (the `ScopeTreeNode` class and
its module-level helpers) and the banned-path helpers of
`src/edb/edgeql/compiler/pathctx.py`.  Python's mutable object graph is
embedded as a heap: a finite association list from node ids to node records;
`weakref` parent pointers become `Option Nat` fields, and the `children` set
becomes a list kept in insertion order (the source iterates a hash set, whose
order is unspecified; the list is a determinization of that).  Fallible
operations return `Except Err Tree`; recursion over the object graph is
bounded by explicit fuel, mirroring that Python recursion terminates on the
finite acyclic trees the module builds.
-/

deriving instance DecidableEq for Except

namespace ScopeTree

/-- Modelled from the spec: `PathId` (module `edb/ir/pathid.py`, absent from
`src/`).  A path id is an immutable sequence of navigation steps optionally
qualified by a namespace set used for alias detachment (spec section 3).
Steps are abstract names; the namespace set is a list compared by
membership.  Link-property and pointer-only paths are not exercised by any
claim, so the modelled paths are plain navigation chains, for which
`is_ptr_path` and `is_linkprop_path` are `false` (spec section 4.3 builds
"one node per non-link-property prefix"). -/
structure PathId where
  steps : List String
  ns : List String
deriving DecidableEq, Repr

namespace PathId

/-- Modelled from the spec: `PathId.strip_namespace(ns_set)` returns a new
value with the given namespaces removed from the path's namespace set. -/
def strip_namespace (p : PathId) (toStrip : List String) : PathId :=
  { p with ns := p.ns.filter (fun x => !(toStrip.contains x)) }

/-- Modelled from the spec: `PathId.replace_namespace(None)` returns the
fully-namespace-stripped path. -/
def replace_namespace_none (p : PathId) : PathId :=
  { p with ns := [] }

/-- Modelled from the spec: `PathId.strip_weak_namespaces()` as used by
`pathctx.ban_path`, which the spec describes as keying the ban table "on the
fully-namespace-stripped path" (spec section 6). -/
def strip_weak_namespaces (p : PathId) : PathId :=
  p.replace_namespace_none

/-- Modelled from the spec: `is_ptr_path` is false for the plain navigation
paths the claims exercise. -/
def is_ptr_path (_p : PathId) : Bool := false

/-- Modelled from the spec: `is_linkprop_path` is false for the plain
navigation paths the claims exercise. -/
def is_linkprop_path (_p : PathId) : Bool := false

/-- Modelled from the spec: `iter_prefixes(include_ptr)` yields every
non-empty prefix of the path "from full to root", the root path last
(spec section 4.1); pointer-only prefixes would be interleaved only for
link-property paths, which are not modelled.  The namespace set is carried
on every prefix. -/
def iterPrefixes (p : PathId) : List PathId :=
  (List.range p.steps.length).map
    (fun k => { steps := p.steps.take (p.steps.length - k), ns := p.ns })

end PathId

/-- One `ScopeTreeNode` object: the per-node attributes of the Python class,
with the parent weakref and the children set embedded as id references. -/
structure NodeRec where
  path_id : Option PathId
  fenced : Bool
  protect_parent : Bool
  unnest_fence : Bool
  optional : Bool
  unique_id : Option Nat
  ns : List String
  parent : Option Nat
  children : List Nat
deriving DecidableEq, Repr

/-- A fresh node as produced by `ScopeTreeNode.__init__`. -/
def NodeRec.new (path_id : Option PathId := none) (fenced : Bool := false)
    (unique_id : Option Nat := none) : NodeRec :=
  { path_id := path_id, fenced := fenced, protect_parent := false,
    unnest_fence := false, optional := false, unique_id := unique_id,
    ns := [], parent := none, children := [] }

/-- The heap of `ScopeTreeNode` objects: Python's object graph.  Nodes are
never deleted (Python objects stay alive while referenced); detaching a node
only rewrites its `parent` field and its old parent's `children` list. -/
structure Tree where
  nodes : List (Nat × NodeRec)
  nextId : Nat
deriving DecidableEq, Repr

/-- First-match association lookup in the heap's entry list. -/
def lookupRec : List (Nat × NodeRec) → Nat → Option NodeRec
  | [], _ => none
  | kv :: t, id => if kv.1 = id then some kv.2 else lookupRec t id

/-- Replace the first entry for a key, appending when absent. -/
def storeRec : List (Nat × NodeRec) → Nat → NodeRec → List (Nat × NodeRec)
  | [], id, r => [(id, r)]
  | kv :: t, id, r => if kv.1 = id then (id, r) :: t else kv :: storeRec t id r

namespace Tree

/-- Look a node up in the heap (a dangling id yields an inert default). -/
def get (s : Tree) (id : Nat) : NodeRec :=
  match lookupRec s.nodes id with
  | some r => r
  | none => NodeRec.new

/-- Store a record for `id` (an attribute write on a live Python object: the
object always exists, so absent ids are materialized). -/
def set (s : Tree) (id : Nat) (r : NodeRec) : Tree :=
  { s with nodes := storeRec s.nodes id r }

/-- Allocate a fresh node, returning the new heap and the new id. -/
def alloc (s : Tree) (r : NodeRec) : Tree × Nat :=
  ({ nodes := s.nodes ++ [(s.nextId, r)], nextId := s.nextId + 1 }, s.nextId)

end Tree

/-- Translation of `_paths_equal`: `None` never equals anything; otherwise
both paths are stripped by the accumulated namespaces (only when the set is
non-empty, as in the source) and compared. -/
def pathsEqual (p1 p2 : Option PathId) (nss : List String) : Bool :=
  match p1, p2 with
  | some a, some b =>
    if nss.isEmpty then a == b
    else a.strip_namespace nss == b.strip_namespace nss
  | _, _ => false

/-- Translation of `_paths_equal_to_shortest_ns`. -/
def pathsEqualToShortestNs (p1 p2 : Option PathId) : Bool :=
  match p1, p2 with
  | some a, some b =>
    let ns1 := a.ns
    let ns2 := b.ns
    if ns1.isEmpty && ns2.isEmpty then a == b
    else
      let extraIn1 := ns1.filter (fun x => !(ns2.contains x))
      let extraIn2 := ns2.filter (fun x => !(ns1.contains x))
      if !extraIn1.isEmpty && !extraIn2.isEmpty then false
      else a.replace_namespace_none == b.replace_namespace_none
  | _, _ => false

/-- The ids on the `ancestors` chain of a node (including the node itself),
obtained by following parent references; `fuel` bounds the walk. -/
def ancestorIds (s : Tree) : Nat → Nat → List Nat
  | 0, _ => []
  | fuel + 1, id =>
    id :: (match (s.get id).parent with
           | none => []
           | some p => ancestorIds s fuel p)

/-- Translation of the loop of `find_visible`: walk an ancestor chain; at
each ancestor check the ancestor itself and then its direct children under
the namespaces accumulated so far, then add the ancestor's namespaces
(`ancestors_and_namespaces` yields the cumulative union, so the union grows
by each node's own declared set). -/
def findVisibleAux (s : Tree) (p : PathId) : List Nat → List String → Option Nat
  | [], _ => none
  | a :: rest, nss =>
    if pathsEqual (s.get a).path_id (some p) nss then some a
    else
      match (s.get a).children.find?
          (fun c => pathsEqual (s.get c).path_id (some p) nss) with
      | some c => some c
      | none => findVisibleAux s p rest (nss ++ (s.get a).ns)

/-- Translation of `ScopeTreeNode.find_visible`. -/
def findVisible (s : Tree) (id : Nat) (p : PathId) : Option Nat :=
  findVisibleAux s p (ancestorIds s (s.nodes.length + 1) id) []

/-- Translation of `ScopeTreeNode.is_visible`. -/
def isVisible (s : Tree) (id : Nat) (p : PathId) : Bool :=
  (findVisible s id p).isSome

/-- Translation of `ScopeTreeNode.parent_fence`: the nearest strict ancestor
fence. -/
def parentFence (s : Tree) (id : Nat) : Option Nat :=
  match ancestorIds s (s.nodes.length + 1) id with
  | [] => none
  | _ :: strictAnc => strictAnc.find? (fun a => (s.get a).fenced)

/-- Translation of the `fence` property: the nearest ancestor fence, the node
itself included. -/
def fenceOf (s : Tree) (id : Nat) : Option Nat :=
  if (s.get id).fenced then some id else parentFence s id

/-- Translation of the loop of `find_child` over a list of candidate
children: direct lookup by exact path equality; with `inBranches` the search
also descends through unfenced, path-less branches. -/
def findChildAux (s : Tree) : Nat → List Nat → PathId → Bool → Option Nat
  | 0, _, _, _ => none
  | _ + 1, [], _, _ => none
  | fuel + 1, c :: cs, p, inBranches =>
    if (s.get c).path_id == some p then some c
    else
      if inBranches && (s.get c).path_id == none && !(s.get c).fenced then
        match findChildAux s fuel (s.get c).children p inBranches with
        | some d => some d
        | none => findChildAux s fuel cs p inBranches
      else findChildAux s fuel cs p inBranches

/-- Translation of `ScopeTreeNode.find_child`. -/
def findChild (s : Tree) (id : Nat) (p : PathId) (inBranches : Bool) :
    Option Nat :=
  findChildAux s (s.nodes.length + 1) (s.get id).children p inBranches

/-- Translation of `strict_descendants_and_namespaces`: every strict
descendant paired with the union of namespaces declared on the child chain
leading to it (each child contributes its own set, cumulatively, top-first).
-/
def sdnsList (s : Tree) : Nat → Nat → List (Nat × List String)
  | 0, _ => []
  | fuel + 1, id =>
    (s.get id).children.flatMap
      (fun c =>
        (c, (s.get c).ns) ::
          (sdnsList s fuel c).map (fun dn => (dn.1, (s.get c).ns ++ dn.2)))

/-- Translation of `find_descendant_and_ns`. -/
def findDescendantAndNs (s : Tree) (id : Nat) (p : PathId) :
    Option Nat × List String :=
  match (sdnsList s (s.nodes.length + 1) id).find?
      (fun dn => pathsEqual (s.get dn.1).path_id (some p) dn.2) with
  | some dn => (some dn.1, dn.2)
  | none => (none, [])

/-- Translation of `unfenced_descendants`: the node itself, then recursively
the unfenced children's unfenced descendants. -/
def unfencedDescendants (s : Tree) : Nat → Nat → List Nat
  | 0, _ => []
  | fuel + 1, id =>
    id :: ((s.get id).children.filter (fun c => !(s.get c).fenced)).flatMap
      (unfencedDescendants s fuel)

/-- Translation of the loop of `find_unfenced`: walk the ancestor chain; at
each ancestor scan its unfenced descendants under the accumulated
namespaces; afterwards add the ancestor's namespaces and record whether it
was marked `unnest_fence`. -/
def findUnfencedAux (s : Tree) (p : PathId) :
    List Nat → List String → Bool → Option Nat × Bool
  | [], _, seen => (none, seen)
  | a :: rest, nss, seen =>
    match (unfencedDescendants s (s.nodes.length + 1) a).find?
        (fun d => pathsEqual (s.get d).path_id (some p) nss) with
    | some d => (some d, seen)
    | none =>
      findUnfencedAux s p rest (nss ++ (s.get a).ns)
        (seen || (s.get a).unnest_fence)

/-- Translation of `ScopeTreeNode.find_unfenced`. -/
def findUnfenced (s : Tree) (id : Nat) (p : PathId) : Option Nat × Bool :=
  findUnfencedAux s p (ancestorIds s (s.nodes.length + 1) id) [] false

/-- The ids of `descendants` (the node itself first, then the strict
descendants, top-first). -/
def descendantIds (s : Tree) : Nat → Nat → List Nat
  | 0, _ => []
  | fuel + 1, id => id :: (s.get id).children.flatMap (descendantIds s fuel)

/-- Translation of the `descendant_namespaces` property: the union of the
namespaces declared by `self.descendants` — a walk that starts at the node
itself, so the node's own namespaces are included. -/
def descendantNamespaces (s : Tree) (id : Nat) : List String :=
  (descendantIds s (s.nodes.length + 1) id).flatMap (fun d => (s.get d).ns)

/-- Translation of `is_empty`. -/
def isEmptyNode (s : Tree) : Nat → Nat → Bool
  | 0, _ => false
  | fuel + 1, id =>
    match (s.get id).path_id with
    | some _ => false
    | none => (s.get id).children.all (fun c => isEmptyNode s fuel c)

/-- Observable failure modes of the subsystem.  `typeErr` is the `TypeError`
Python raises when `InvalidScopeConfiguration` is constructed without its
required keyword-only arguments (as `attach_child` does); `invalidScope`
carries the offending and pre-existing node of a completed
`InvalidScopeConfiguration`; `keyErr` is `remove_subtree`'s `KeyError`;
`attrErr` is the `AttributeError` of a method call on `None`; `fuel` marks
recursion-bound exhaustion of the embedding (never hit on the finite trees
evaluated here). -/
inductive Err where
  | typeErr
  | invalidScope (offending existing : Nat)
  | keyErr
  | attrErr
  | fuel
deriving DecidableEq, Repr

/-- Overwrite a node's children list (one Python attribute write). -/
def updChildren (s : Tree) (i : Nat) (cs : List Nat) : Tree :=
  s.set i { s.get i with children := cs }

/-- Overwrite a node's parent reference (one Python attribute write). -/
def updParent (s : Tree) (i : Nat) (q : Option Nat) : Tree :=
  s.set i { s.get i with parent := q }

/-- Translation of `_set_parent`: detach from the current parent's children
set, then set the new parent and register in its children (appending, as the
determinization of Python's set insertion). -/
def setParent (s : Tree) (nid : Nat) (newParent : Option Nat) : Tree :=
  if (s.get nid).parent == newParent then s
  else
    let s1 :=
      match (s.get nid).parent with
      | some p => updChildren s p ((s.get p).children.filter (fun c => c ≠ nid))
      | none => s
    match newParent with
    | some p =>
      let s2 := updParent s1 nid (some p)
      updChildren s2 p ((s2.get p).children ++ [nid])
    | none => updParent s1 nid none

/-- Translation of `remove_subtree`: raises `KeyError` when the argument is
not a child. -/
def removeSubtree (s : Tree) (self node : Nat) : Except Err Tree :=
  if (s.get self).children.contains node then .ok (setParent s node none)
  else .error .keyErr

/-- Translation of `ScopeTreeNode.remove`. -/
def removeNode (s : Tree) (nid : Nat) : Except Err Tree :=
  match (s.get nid).parent with
  | none => .ok s
  | some p => removeSubtree s p nid

/-- Translation of `ScopeTreeNode.attach_child`.  The duplicate-path branch
of the source raises `InvalidScopeConfiguration` without the constructor's
required `offending_node`/`existing_node` keyword arguments, so the
exception that actually escapes is the constructor's `TypeError`, embedded
as `Err.typeErr`. -/
def attachChild (s : Tree) (self node : Nat) : Except Err Tree :=
  if (s.get node).path_id.isSome &&
      (s.get self).children.any
        (fun c => (s.get c).path_id == (s.get node).path_id) then
    .error .typeErr
  else if (s.get node).unique_id.isSome &&
      (s.get self).children.any
        (fun c => (s.get c).unique_id == (s.get node).unique_id) then
    .ok s
  else
    .ok (setParent s node (some self))

/-- Translation of `remove_descendants`: collect all matching descendants
first, then detach each. -/
def removeDescendants (s : Tree) (self : Nat) (p : PathId) : Except Err Tree :=
  let matching := (descendantIds s (s.nodes.length + 1) self).filter
      (fun d => pathsEqualToShortestNs (s.get d).path_id (some p))
  matching.foldlM (fun st d => removeNode st d) s

/-- Set a node's `optional` flag (the only way the source ever writes it —
it is only ever set to `True`). -/
def setOptionalTrue (s : Tree) (id : Nat) : Tree :=
  s.set id { s.get id with optional := true }

/-- Rewrite a node's `path_id` (used by the namespace-stripping steps). -/
def setPathId (s : Tree) (id : Nat) (p : Option PathId) : Tree :=
  s.set id { s.get id with path_id := p }

/-- Translation of `mark_as_optional`: delegate to `find_visible` and set the
flag on the result, silently doing nothing when the path is not visible. -/
def markAsOptional (s : Tree) (id : Nat) (p : PathId) : Tree :=
  match findVisible s id p with
  | some n => setOptionalTrue s n
  | none => s

/-- Translation of `is_optional`. -/
def isOptional (s : Tree) (id : Nat) (p : PathId) : Bool :=
  match findVisible s id p with
  | some n => (s.get n).optional
  | none => false

/-- Translation of the final loop of `attach_subtree`: strip, from every
path-bearing descendant of a remaining child, the namespaces that intersect
the attached subtree root's own declared namespaces. -/
def stripDescNs (s : Tree) (nodeNs : List String) (top : Nat) : Tree :=
  (descendantIds s (s.nodes.length + 1) top).foldl
    (fun st d =>
      match (st.get d).path_id with
      | some pid =>
        if !pid.ns.isEmpty then
          let toStrip := pid.ns.filter (fun x => nodeNs.contains x)
          setPathId st d (some (pid.strip_namespace toStrip))
        else st
      | none => st) s

/-- The mutually recursive reconciliation operations of the source
(`attach_subtree` / `fuse_subtree` and the stages of `attach_subtree`'s
loop), reified as tasks of a single fueled interpreter so that the recursion
is plainly structural on the fuel. -/
inductive Task where
  | attach (s : Tree) (self node : Nat)
  | level (s : Tree) (self node : Nat) (dns : List String) (kids : List Nat)
  | one (s : Tree) (self node : Nat) (dns : List String) (d : Nat)
  | handle (s : Tree) (node d : Nat) (pid : PathId) (existing : Nat)
      (existingNs : List String) (unnestFence : Bool) (pfOpt : Option Nat)
  | fuse (s : Tree) (self node : Nat)
  | reattach (s : Tree) (self node : Nat) (rem : List Nat)

/-- The interpreter for the mutually recursive cluster.  Branches:
`attach` is `ScopeTreeNode.attach_subtree` (wrap a bare path node in a
synthetic fence, compute `dns`, walk the path descendants, reattach the
rest); `level` is the `for descendant in node.path_descendants` generator
walk, which snapshots each node's children only when it descends into that
node — after the node itself was processed — so a node detached mid-walk
still has its old subtree visited; `one` is the loop body for a single path
descendant (discard-if-visible with optional propagation, else resolve an
unfenced path against the existing tree); `handle` is the
`existing is not None` tail (raise the ambiguous-correlation error naming
the offending and pre-existing nodes when an `unnest_fence` was crossed and
the target fence has no local child, else hoist the match and fuse);
`fuse` is `ScopeTreeNode.fuse_subtree`; `reattach` is the final
`attach_child` loop of `attach_subtree` with its namespace stripping. -/
def exec : Nat → Task → Except Err Tree
  | 0, _ => .error .fuel
  | fuel + 1, t =>
    match t with
    | .attach s self node => do
      let wrapped ←
        if (s.get node).path_id.isSome then do
          let a := s.alloc (NodeRec.new none true)
          let s2 ← attachChild a.1 a.2 node
          pure (s2, a.2)
        else pure (s, node)
      let s := wrapped.1
      let node := wrapped.2
      let dns := descendantNamespaces s node
      let s ← exec fuel (.level s self node dns (s.get node).children)
      exec fuel (.reattach s self node (s.get node).children)
    | .level s self node dns kids =>
      match kids with
      | [] => .ok s
      | c :: rest => do
        let s ← if (s.get c).path_id.isSome then
                  exec fuel (.one s self node dns c)
                else pure s
        let s ← exec fuel (.level s self node dns (s.get c).children)
        exec fuel (.level s self node dns rest)
    | .one s self node dns d =>
      match (s.get d).path_id with
      | none => .ok s
      | some pid0 =>
        let pid := pid0.strip_namespace dns
        match findVisible s self pid with
        | some visible => do
          let s ← removeNode s d
          pure (if (s.get d).optional then setOptionalTrue s visible else s)
        | none =>
          if parentFence s d == some node then
            let fd := findDescendantAndNs s self pid
            match fd.1 with
            | some existing =>
              exec fuel (.handle s node d pid existing fd.2 false (fenceOf s self))
            | none =>
              let fu := findUnfenced s self pid
              match fu.1 with
              | some existing =>
                exec fuel
                  (.handle s node d pid existing [] fu.2 (parentFence s existing))
              | none => .ok s
          else .ok s
    | .handle s _node d pid existing existingNs unnestFence pfOpt =>
      match pfOpt with
      | none => .error .attrErr
      | some pf =>
        if (findChild s pf pid false).isNone then
          if unnestFence && (findChild s pf pid true).isNone then
            match (s.get d).parent with
            | none => .error .attrErr
            | some par =>
              .error (.invalidScope
                (if (s.get par).path_id.isSome then par else d) existing)
          else do
            let s ← removeDescendants s pf pid
            let s := setPathId s existing
              (((s.get existing).path_id).map
                (fun q => q.strip_namespace existingNs))
            let s ← attachChild s pf existing
            exec fuel (.fuse s existing d)
        else exec fuel (.fuse s existing d)
    | .fuse s self node => do
      let s ← removeNode s node
      if (s.get node).path_id.isSome then do
        let s := if (s.get node).optional then setOptionalTrue s self else s
        let a := s.alloc (NodeRec.new none true)
        let sub := a.2
        let s ← ((a.1.get node).children).foldlM
          (fun st c => attachChild st sub c) a.1
        exec fuel (.attach s self sub)
      else
        exec fuel (.attach s self node)
    | .reattach s self node rem =>
      match rem with
      | [] => .ok s
      | c :: rest => do
        let s := stripDescNs s (s.get node).ns c
        let s ← attachChild s self c
        exec fuel (.reattach s self node rest)

/-- Translation of `ScopeTreeNode.attach_subtree` (the `attach` task). -/
def attachSubtree (fuel : Nat) (s : Tree) (self node : Nat) : Except Err Tree :=
  exec fuel (.attach s self node)

/-- The generator walk over a level snapshot of `attach_subtree`'s
descendant loop (the `level` task). -/
def processLevel (fuel : Nat) (s : Tree) (self node : Nat)
    (dns : List String) (kids : List Nat) : Except Err Tree :=
  exec fuel (.level s self node dns kids)

/-- The body of `attach_subtree`'s loop for one path descendant (the `one`
task). -/
def processOne (fuel : Nat) (s : Tree) (self node : Nat)
    (dns : List String) (d : Nat) : Except Err Tree :=
  exec fuel (.one s self node dns d)

/-- The `existing is not None` tail of `attach_subtree`'s loop body (the
`handle` task). -/
def handleExisting (fuel : Nat) (s : Tree) (node d : Nat) (pid : PathId)
    (existing : Nat) (existingNs : List String) (unnestFence : Bool)
    (pfOpt : Option Nat) : Except Err Tree :=
  exec fuel (.handle s node d pid existing existingNs unnestFence pfOpt)

/-- Translation of `ScopeTreeNode.fuse_subtree` (the `fuse` task). -/
def fuseSubtree (fuel : Nat) (s : Tree) (self node : Nat) : Except Err Tree :=
  exec fuel (.fuse s self node)

/-- The heap a task starts from. -/
def taskState : Task → Tree
  | .attach s _ _ => s
  | .level s _ _ _ _ => s
  | .one s _ _ _ _ => s
  | .handle s _ _ _ _ _ _ _ => s
  | .fuse s _ _ => s
  | .reattach s _ _ _ => s

/-- Translation of the chain-building loop of `attach_path`: iterate the
reversed prefix list of the path, skipping pointer-only prefixes (recording
that the next step is a link property), attaching one node per remaining
prefix and descending except after link-property steps. -/
def buildChain (s : Tree) (parent : Nat) (isLprop : Bool) :
    List PathId → Except Err Tree
  | [] => .ok s
  | pre :: rest =>
    if pre.is_ptr_path then buildChain s parent true rest
    else do
      let a := s.alloc (NodeRec.new (some pre) false)
      let s2 ← attachChild a.1 parent a.2
      let parent2 := if !(isLprop || pre.is_linkprop_path) then a.2 else parent
      buildChain s2 parent2 false rest

/-- Translation of `ScopeTreeNode.attach_path`: build the private fenced
chain for the path's prefixes and merge it with `attach_subtree`. -/
def attachPath (fuel : Nat) (s : Tree) (self : Nat) (p : PathId) :
    Except Err Tree := do
  let a := s.alloc (NodeRec.new none true)
  let s2 ← buildChain a.1 a.2 false p.iterPrefixes.reverse
  attachSubtree fuel s2 self a.2

/-- Translation of `attach_fence`: create and attach an empty fenced node,
returning it. -/
def attachFence (s : Tree) (self : Nat) : Except Err (Tree × Nat) := do
  let a := s.alloc (NodeRec.new none true)
  let s2 ← attachChild a.1 self a.2
  pure (s2, a.2)

/-- The slice of the compiler context consumed by `pathctx.ban_path` and
`pathctx.path_is_banned`: the banned-path side table and the ambient scope
tree position. -/
structure Ctx where
  banned_paths : List PathId
  path_scope : Tree
  scope_node : Nat
deriving DecidableEq, Repr

/-- Translation of `pathctx.ban_path`: add the namespace-stripped path to
the side table. -/
def banPath (ctx : Ctx) (p : PathId) : Ctx :=
  { ctx with banned_paths := ctx.banned_paths ++ [p.strip_weak_namespaces] }

/-- Translation of `pathctx.path_is_banned`: membership of the stripped path
in the side table, conjoined with visibility of the path in the current
scope tree. -/
def pathIsBanned (ctx : Ctx) (p : PathId) : Bool :=
  ctx.banned_paths.contains p.strip_weak_namespaces &&
    isVisible ctx.path_scope ctx.scope_node p

/-- Translation of the `strict_descendants` property (descendants of each
child, top-first, the node itself excluded). -/
def strictDescendantIds (s : Tree) (id : Nat) : List Nat :=
  (s.get id).children.flatMap (descendantIds s s.nodes.length)

/-- The union of namespaces declared by the strict descendants only — the
set the spec's description of `dns` refers to ("not including `node`'s own
namespaces"), for comparison with the `descendant_namespaces` the source
actually uses. -/
def strictDescendantNamespaces (s : Tree) (id : Nat) : List String :=
  (strictDescendantIds s id).flatMap (fun d => (s.get d).ns)

/-- Concrete single-step path `A`. -/
def pA : PathId := ⟨["A"], []⟩

/-- Concrete path `A.b`. -/
def pAb : PathId := ⟨["A", "b"], []⟩

/-- Concrete path `A.b.c`. -/
def pAbc : PathId := ⟨["A", "b", "c"], []⟩

/-- Concrete path `B`. -/
def pB : PathId := ⟨["B"], []⟩

/-- Concrete path `C`. -/
def pC : PathId := ⟨["C"], []⟩

/-- A childless, path-less root node (an empty scope), with the given
fencing flag. -/
def emptyRoot (fenced : Bool) : Tree :=
  ⟨[(0, NodeRec.new none fenced)], 1⟩

/-- The Scenario A pipeline of claim C1: `attach_path A.b` then
`attach_path A.b.c` on an empty root. -/
def c1run (fenced : Bool) : Except Err Tree :=
  (attachPath 32 (emptyRoot fenced) 0 pAb).bind
    (fun s => attachPath 32 s 0 pAbc)

/-- The node ids reachable from the root of a heap (the tree under `R`). -/
def underRoot (s : Tree) : List Nat :=
  descendantIds s (s.nodes.length + 1) 0

/-- Does the tree under the root contain a node labeled `p` with a direct
child labeled `q`? -/
def hasEdge (s : Tree) (p q : PathId) : Bool :=
  (underRoot s).any (fun i =>
    (s.get i).path_id == some p &&
      (s.get i).children.any (fun j => (s.get j).path_id == some q))

/-- Is some node under the root labeled `p`? -/
def hasNodeLabeled (s : Tree) (p : PathId) : Bool :=
  (underRoot s).any (fun i => (s.get i).path_id == some p)

/-- The claim-C1 shape check on the outcome of `c1run`: ran without error
and produced a node `A.b` with child `A.b.c` under the root. -/
def c1claimCheck (fenced : Bool) : Bool :=
  match c1run fenced with
  | .ok s => hasEdge s pAb pAbc
  | .error _ => false

/-- The amended claim-C1 check: ran without error, the root has the chain
`A` with child `A.b`, and nothing under the root is labeled `A.b.c`. -/
def c1amendCheck (fenced : Bool) : Bool :=
  match c1run fenced with
  | .ok s =>
    hasEdge s pA pAb && hasNodeLabeled s pAb && !(hasNodeLabeled s pAbc)
  | .error _ => false

/-- The heap produced by claim C1's pipeline on an unfenced empty root. -/
def c1sFinal : Tree :=
  match c1run false with
  | .ok t => t
  | .error _ => emptyRoot false

/-- Claim C2's concrete scenario: node 0 is the fenced root with children
`C` (node 1, holding `A.b` at node 2) and the fenced, `unnest_fence`-marked
attach target (node 3); nodes 4-6 are the detached incoming subtree
`FENCE -> A -> A.b` about to be merged into node 3. -/
def c2s : Tree :=
  ⟨[(0, { NodeRec.new none true with children := [1, 3] }),
    (1, { NodeRec.new (some pC) false with parent := some 0, children := [2] }),
    (2, { NodeRec.new (some pAb) false with parent := some 1 }),
    (3, { NodeRec.new none true with parent := some 0, unnest_fence := true }),
    (4, { NodeRec.new none true with children := [5] }),
    (5, { NodeRec.new (some pA) false with parent := some 4, children := [6] }),
    (6, { NodeRec.new (some pAb) false with parent := some 5 })], 7⟩

/-- Claim C3's failing input: a parent (node 0) that already has a child
(node 1) labeled `A`, and a detached node 2 also labeled `A` with no
`unique_id`, so the idempotent skip cannot apply. -/
def c3s : Tree :=
  ⟨[(0, { NodeRec.new none false with children := [1] }),
    (1, { NodeRec.new (some pA) false with parent := some 0 }),
    (2, NodeRec.new (some pA) false)], 3⟩

/-- Claim C4's counterexample input: the parent's child (node 1) and the
node being attached (node 2) share `unique_id` 1 *and* the label `A`. -/
def c4s : Tree :=
  ⟨[(0, { NodeRec.new none false with children := [1] }),
    (1, { NodeRec.new (some pA) false (some 1) with parent := some 0 }),
    (2, NodeRec.new (some pA) false (some 1))], 3⟩

/-- Claim C4's witness input: shared `unique_id` 5 but distinct labels, the
case in which the idempotent skip does fire. -/
def c4w : Tree :=
  ⟨[(0, { NodeRec.new none false with children := [1] }),
    (1, { NodeRec.new (some pA) false (some 5) with parent := some 0 }),
    (2, NodeRec.new (some pB) false (some 5))], 3⟩

/-- Claim C5's counterexample input: a subtree root declaring namespace
`x` with no descendants. -/
def c5s : Tree :=
  ⟨[(0, { NodeRec.new none false with ns := ["x"] })], 1⟩

/-- Claim C6's pipeline: a fenced root, two fences `F` and `S` attached
under it, and the path `A` attached inside each fence. -/
def c6run : Except Err (Tree × Nat × Nat) := do
  let a ← attachFence (emptyRoot true) 0
  let b ← attachFence a.1 0
  let s1 ← attachPath 32 b.1 a.2 pA
  let s2 ← attachPath 32 s1 b.2 pA
  pure (s2, a.2, b.2)

/-- The heap produced by claim C6's pipeline. -/
def c6s : Tree :=
  match c6run with
  | .ok x => x.1
  | .error _ => emptyRoot true

/-- A three-node chain `root -> A -> A.b` used by claims C7's witness. -/
def c7s : Tree :=
  ⟨[(0, { NodeRec.new none false with children := [1] }),
    (1, { NodeRec.new (some pA) false with parent := some 0, children := [2] }),
    (2, { NodeRec.new (some pAb) false with parent := some 1 })], 3⟩

/-- Claim C8's witness heap for the fuse part: node 0 is a path node `A`
with the flag clear, node 1 a detached optional occurrence of `A`. -/
def c8s : Tree :=
  ⟨[(0, NodeRec.new (some pA) false),
    (1, { NodeRec.new (some pA) false with optional := true })], 2⟩

/-- The heap after fusing node 1 into node 0 of `c8s`. -/
def c8sFinal : Tree :=
  match fuseSubtree 8 c8s 0 1 with
  | .ok t => t
  | .error _ => c8s

/-- Claim C8's witness heap for the discard part: the attach target (node
0) is a root with a visible child `A` (node 1); node 3, inside the detached
incoming fence (node 2), is an optional occurrence of `A`. -/
def c8t : Tree :=
  ⟨[(0, { NodeRec.new none false with children := [1] }),
    (1, { NodeRec.new (some pA) false with parent := some 0 }),
    (2, { NodeRec.new none true with children := [3] }),
    (3, { NodeRec.new (some pA) false with parent := some 2, optional := true })], 4⟩

/-- The heap after claim C8's discard step on `c8t`. -/
def c8tFinal : Tree :=
  match processOne 8 c8t 0 2 [] 3 with
  | .ok t => t
  | .error _ => c8t

/-- C10: when `find_visible` returns no node, `is_optional` is false and
`mark_as_optional` is a silent no-op leaving the whole heap (hence every
optional flag) unchanged. -/
theorem c10_invisible_mark_noop (s : Tree) (n : Nat) (p : PathId)
    (h : findVisible s n p = none) :
    isOptional s n p = false ∧ markAsOptional s n p = s := by
  unfold isOptional markAsOptional
  rw [h]
  exact ⟨rfl, rfl⟩

/-- Witness for C10 on a concrete empty scope. -/
theorem c10_invisible_mark_noop_witness :
    findVisible (emptyRoot false) 0 pA = none ∧
      isOptional (emptyRoot false) 0 pA = false ∧
      markAsOptional (emptyRoot false) 0 pA = emptyRoot false := by
  refine ⟨by decide, ?_, ?_⟩
  · exact (c10_invisible_mark_noop (emptyRoot false) 0 pA (by decide)).1
  · exact (c10_invisible_mark_noop (emptyRoot false) 0 pA (by decide)).2

/-- C9, counterexample: banning `A` and then querying `A` itself on a
context whose scope tree is an empty root returns `false`, although the
stripped forms coincide — the check also requires scope-tree visibility. -/
theorem c9_ban_counterexample :
    (pA.strip_weak_namespaces == pA.strip_weak_namespaces) = true ∧
      pathIsBanned (banPath ⟨[], emptyRoot false, 0⟩ pA) pA = false := by
  decide

/-- C9, amended: after banning `p` on a context with no prior bans,
`path_is_banned q` holds exactly when `q`'s stripped form equals `p`'s
stripped form *and* `q` is visible in the context's scope tree. -/
theorem c9_ban_amended (t : Tree) (nid : Nat) (p q : PathId) :
    pathIsBanned (banPath ⟨[], t, nid⟩ p) q =
      ((q.strip_weak_namespaces == p.strip_weak_namespaces) &&
        isVisible t nid q) := by
  unfold pathIsBanned banPath
  simp [List.contains, List.elem]
  cases q.strip_weak_namespaces == p.strip_weak_namespaces <;> rfl

/-- C3: on a direct-sibling PathId collision (with no unique_id to trigger
the idempotent skip), `attach_child` does not produce the
invalid-scope-configuration error carrying both nodes: the source calls the
`InvalidScopeConfiguration` constructor without its required
`offending_node`/`existing_node` keyword arguments, so what escapes is the
constructor's `TypeError`. -/
theorem c3_attach_child_typeerror :
    attachChild c3s 0 2 = Except.error Err.typeErr ∧
      ∀ off ex, attachChild c3s 0 2 ≠ Except.error (Err.invalidScope off ex) := by
  refine ⟨by decide, ?_⟩
  intro off ex h
  have h2 : attachChild c3s 0 2 = Except.error Err.typeErr := by decide
  rw [h2] at h
  simp at h

/-- C4, counterexample: when the attached node's `unique_id` matches an
existing child but its PathId also collides with that child's, the
duplicate-path branch fires first — the call errors instead of being a
no-op. -/
theorem c4_uid_noop_counterexample :
    attachChild c4s 0 2 = Except.error Err.typeErr := by
  decide

/-- C4, amended: the idempotent skip applies only when no PathId collision
fires first: if the node's `unique_id` matches an existing child's and its
PathId collides with no existing child (in particular when it has no
PathId), `attach_child` is a no-op returning the tree unchanged. -/
theorem c4_uid_noop_amended (s : Tree) (P n u : Nat)
    (hu : (s.get n).unique_id = some u)
    (hmem : (s.get P).children.any
      (fun c => (s.get c).unique_id == some u) = true)
    (hpath : (s.get n).path_id = none ∨
      ∀ c ∈ (s.get P).children, (s.get c).path_id ≠ (s.get n).path_id) :
    attachChild s P n = Except.ok s := by
  have hdup : ((s.get n).path_id.isSome &&
      (s.get P).children.any
        (fun c => (s.get c).path_id == (s.get n).path_id)) = false := by
    rcases hpath with h | h
    · rw [h]
      rfl
    · have : (s.get P).children.any
          (fun c => (s.get c).path_id == (s.get n).path_id) = false := by
        rw [List.any_eq_false]
        intro c hc
        simpa using h c hc
      rw [this, Bool.and_false]
  unfold attachChild
  rw [hdup, hu]
  simp only [Option.isSome_some, Bool.true_and, hmem]
  simp

/-- Witness for C4's amended claim: shared unique_id 5, distinct labels. -/
theorem c4_uid_noop_amended_witness :
    attachChild c4w 0 2 = Except.ok c4w := by
  exact c4_uid_noop_amended c4w 0 2 5 (by decide) (by decide)
    (Or.inr (by decide))

/-- C5, counterexample: the `dns` that `attach_subtree` computes via
`descendant_namespaces` contains a namespace declared only on the attached
root itself, so it is not the strict-descendants-only union the claim
describes. -/
theorem c5_dns_counterexample :
    "x" ∈ (c5s.get 0).ns ∧
      "x" ∈ descendantNamespaces c5s 0 ∧
      "x" ∉ strictDescendantNamespaces c5s 0 := by
  refine ⟨by decide, by decide, by decide⟩

/-- C5, amended: the namespace set used by `attach_subtree` is the union of
the namespaces declared by the attached root *and* all of its strict
descendants — the root's own namespaces are included, because
`descendant_namespaces` iterates `descendants`, which starts at the node
itself. -/
theorem c5_dns_amended (s : Tree) (id : Nat) (x : String) :
    x ∈ descendantNamespaces s id ↔
      x ∈ (s.get id).ns ∨ x ∈ strictDescendantNamespaces s id := by
  have h : descendantNamespaces s id =
      (s.get id).ns ++ strictDescendantNamespaces s id := rfl
  rw [h, List.mem_append]

/-- Witness for C5's amended claim at a concrete heap. -/
theorem c5_dns_amended_witness :
    "x" ∈ descendantNamespaces c5s 0 := by
  exact (c5_dns_amended c5s 0 "x").mpr (Or.inl (by decide))

/-- C1, counterexample: attaching `A.b` and then `A.b.c` on an empty root
runs without error, but the resulting tree under the root has no node
labeled `A.b` with a child labeled `A.b.c` — processing the second chain
finds its prefix `A` already visible, removes the whole incoming chain from
the subtree being attached, and the lazily-snapshotted generator walk then
skips the orphaned `A.b`/`A.b.c` nodes (their `parent_fence` is no longer
the subtree root), so nothing re-attaches `A.b.c`. -/
theorem c1_scenario_counterexample :
    c1run false = Except.ok c1sFinal ∧ hasEdge c1sFinal pAb pAbc = false := by
  exact ⟨by decide, by decide⟩

/-- C1, amended: on an empty root (fenced or not), `attach_path A.b`
followed by `attach_path A.b.c` succeeds without raising, and the resulting
tree under the root contains `A` with child `A.b`, but the `A.b.c` node is
silently discarded: no node under the root is labeled `A.b.c`. -/
theorem c1_scenario_amended : ∀ fenced : Bool, c1amendCheck fenced = true := by
  intro fenced
  cases fenced <;> decide

/-- Stripping by a superset subsumes stripping by a subset. -/
theorem strip_strip_of_subset (S T : List String) (h : ∀ x ∈ S, x ∈ T)
    (q : PathId) :
    (q.strip_namespace S).strip_namespace T = q.strip_namespace T := by
  unfold PathId.strip_namespace
  congr 1
  rw [List.filter_filter]
  apply List.filter_congr
  intro x _
  by_cases hT : x ∈ T
  · have h1 : T.contains x = true := List.elem_eq_true_of_mem hT
    rw [h1]
    rfl
  · have h1 : T.contains x = false := by
      cases hc : T.contains x
      · rfl
      · exact absurd (List.mem_of_elem_eq_true hc) hT
    have h2 : S.contains x = false := by
      cases hc : S.contains x
      · rfl
      · exact absurd (h x (List.mem_of_elem_eq_true hc)) hT
    rw [h1, h2]
    rfl

/-- A path always matches itself under any accumulated namespace set. -/
theorem pathsEqual_refl (p : PathId) (S : List String) :
    pathsEqual (some p) (some p) S = true := by
  show (if S.isEmpty = true then p == p
      else p.strip_namespace S == p.strip_namespace S) = true
  by_cases hS : S.isEmpty = true
  · rw [if_pos hS]
    exact beq_self_eq_true p
  · rw [if_neg hS]
    exact beq_self_eq_true _

/-- A namespace-adjusted match survives enlarging the accumulated namespace
set (the walk from a descendant accumulates a superset at every shared
frame). -/
theorem pathsEqual_mono (p1 p2 : Option PathId) (S T : List String)
    (hsub : ∀ x ∈ S, x ∈ T) (h : pathsEqual p1 p2 S = true) :
    pathsEqual p1 p2 T = true := by
  match p1, p2 with
  | none, none => simp [pathsEqual] at h
  | none, some _ => simp [pathsEqual] at h
  | some a, none => simp [pathsEqual] at h
  | some a, some b =>
    have h2 : (if S.isEmpty = true then a == b
        else a.strip_namespace S == b.strip_namespace S) = true := h
    show (if T.isEmpty = true then a == b
        else a.strip_namespace T == b.strip_namespace T) = true
    by_cases hS : S.isEmpty = true
    · rw [if_pos hS] at h2
      have hab : a = b := eq_of_beq h2
      subst hab
      by_cases hT : T.isEmpty = true
      · rw [if_pos hT]
        exact beq_self_eq_true a
      · rw [if_neg hT]
        exact beq_self_eq_true _
    · rw [if_neg hS] at h2
      have hab : a.strip_namespace S = b.strip_namespace S := eq_of_beq h2
      have hT : ¬(T.isEmpty = true) := by
        cases S with
        | nil => exact absurd rfl hS
        | cons x xs =>
          have hxT : x ∈ T := hsub x (List.mem_cons_self x xs)
          cases T with
          | nil => exact absurd hxT (List.not_mem_nil x)
          | cons y ys => simp
      rw [if_neg hT]
      have hst : a.strip_namespace T = b.strip_namespace T := by
        rw [← strip_strip_of_subset S T hsub a,
          ← strip_strip_of_subset S T hsub b, hab]
      rw [hst]
      exact beq_self_eq_true _

/-- Enlarging the initial accumulated namespace set of `find_visible`'s walk
preserves success. -/
theorem findVisibleAux_mono (s : Tree) (p : PathId) :
    ∀ (ids : List Nat) (S T : List String), (∀ x ∈ S, x ∈ T) →
      (findVisibleAux s p ids S).isSome = true →
      (findVisibleAux s p ids T).isSome = true := by
  intro ids
  induction ids with
  | nil =>
    intro S T _ h
    simp [findVisibleAux] at h
  | cons a rest ih =>
    intro S T hsub h
    rw [findVisibleAux] at h ⊢
    by_cases h1 : pathsEqual (s.get a).path_id (some p) T = true
    · rw [if_pos h1]
      rfl
    · have h1S : ¬(pathsEqual (s.get a).path_id (some p) S = true) := by
        intro hq
        exact h1 (pathsEqual_mono _ _ _ _ hsub hq)
      rw [if_neg h1S] at h
      rw [if_neg h1]
      cases h2 : (s.get a).children.find?
          (fun c => pathsEqual (s.get c).path_id (some p) T) with
      | some c => rfl
      | none =>
        have h2S : (s.get a).children.find?
            (fun c => pathsEqual (s.get c).path_id (some p) S) = none := by
          rw [List.find?_eq_none] at h2 ⊢
          intro x hx hPx
          exact h2 x hx (pathsEqual_mono _ _ _ _ hsub hPx)
        rw [h2S] at h
        exact ih (S ++ (s.get a).ns) (T ++ (s.get a).ns)
          (by
            intro x hx
            rcases List.mem_append.mp hx with hx1 | hx2
            · exact List.mem_append.mpr (Or.inl (hsub x hx1))
            · exact List.mem_append.mpr (Or.inr hx2)) h

/-- Prepending frames to a successful `find_visible` walk preserves success,
whatever namespaces the extra frames accumulate. -/
theorem findVisibleAux_prepend (s : Tree) (p : PathId) (ids0 : List Nat)
    (h : (findVisibleAux s p ids0 []).isSome = true) :
    ∀ (l : List Nat) (S : List String),
      (findVisibleAux s p (l ++ ids0) S).isSome = true := by
  intro l
  induction l with
  | nil =>
    intro S
    exact findVisibleAux_mono s p ids0 [] S (by intro x hx; cases hx) h
  | cons a l2 ih =>
    intro S
    rw [List.cons_append, findVisibleAux]
    by_cases h1 : pathsEqual (s.get a).path_id (some p) S = true
    · rw [if_pos h1]
      rfl
    · rw [if_neg h1]
      cases h2 : (s.get a).children.find?
          (fun c => pathsEqual (s.get c).path_id (some p) S) with
      | some c => rfl
      | none => exact ih (S ++ (s.get a).ns)

/-- The walk of `find_visible` only ever returns a frame of the ancestor
chain or a direct child of such a frame. -/
theorem findVisibleAux_locality (s : Tree) (p : PathId) :
    ∀ (ids : List Nat) (S : List String) (v : Nat),
      findVisibleAux s p ids S = some v →
      v ∈ ids ∨ ∃ a ∈ ids, v ∈ (s.get a).children := by
  intro ids
  induction ids with
  | nil =>
    intro S v h
    simp [findVisibleAux] at h
  | cons a rest ih =>
    intro S v h
    rw [findVisibleAux] at h
    by_cases h1 : pathsEqual (s.get a).path_id (some p) S = true
    · rw [if_pos h1] at h
      have : a = v := Option.some.inj h
      subst this
      exact Or.inl (List.mem_cons_self a rest)
    · rw [if_neg h1] at h
      cases h2 : (s.get a).children.find?
          (fun c => pathsEqual (s.get c).path_id (some p) S) with
      | some c =>
        rw [h2] at h
        have hc : c ∈ (s.get a).children := List.mem_of_find?_eq_some h2
        have : c = v := Option.some.inj h
        subst this
        exact Or.inr ⟨a, List.mem_cons_self a rest, hc⟩
      | none =>
        rw [h2] at h
        rcases ih (S ++ (s.get a).ns) v h with hmem | ⟨a2, ha2, hv⟩
        · exact Or.inl (List.mem_cons_of_mem a hmem)
        · exact Or.inr ⟨a2, List.mem_cons_of_mem a ha2, hv⟩

/-- If some frame of the walk has a direct child carrying exactly the sought
path, the walk succeeds. -/
theorem findVisibleAux_child_found (s : Tree) (p : PathId) :
    ∀ (ids : List Nat) (S : List String) (dpar d : Nat),
      dpar ∈ ids → d ∈ (s.get dpar).children → (s.get d).path_id = some p →
      (findVisibleAux s p ids S).isSome = true := by
  intro ids
  induction ids with
  | nil =>
    intro S dpar d hmem _ _
    cases hmem
  | cons a rest ih =>
    intro S dpar d hmem hchild hpath
    rw [findVisibleAux]
    by_cases h1 : pathsEqual (s.get a).path_id (some p) S = true
    · rw [if_pos h1]
      rfl
    · rw [if_neg h1]
      cases h2 : (s.get a).children.find?
          (fun c => pathsEqual (s.get c).path_id (some p) S) with
      | some c => rfl
      | none =>
        rcases List.mem_cons.mp hmem with heq | hrest
        · exfalso
          rw [List.find?_eq_none] at h2
          apply h2 d (heq ▸ hchild)
          rw [hpath]
          exact pathsEqual_refl p S
        · exact ih (S ++ (s.get a).ns) dpar d hrest hchild hpath

/-- C7: once `find_visible p` succeeds at a node `n`, it succeeds at every
descendant `m` of `n` (a node whose ancestor chain extends `n`'s): visibility
is monotone going deeper, because the deeper walk revisits the same frames
with an accumulated namespace superset, under which every match survives. -/
theorem c7_visibility_monotone (s : Tree) (m n : Nat) (l : List Nat)
    (p : PathId)
    (hchain : ancestorIds s (s.nodes.length + 1) m =
      l ++ ancestorIds s (s.nodes.length + 1) n)
    (hvis : (findVisible s n p).isSome = true) :
    (findVisible s m p).isSome = true := by
  unfold findVisible at hvis ⊢
  rw [hchain]
  exact findVisibleAux_prepend s p _ hvis l []

/-- Witness for C7 on the chain `root -> A -> A.b`: `A` is visible from the
root and hence from the deeper `A.b` node. -/
theorem c7_visibility_monotone_witness :
    (findVisible c7s 2 pA).isSome = true := by
  exact c7_visibility_monotone c7s 2 0 [2, 1] pA (by decide) (by decide)

/-- C6, counterexample: in the tree built by attaching path `A` inside each
of two sibling fences (nodes 1 and 2 under the fenced root 0), node 4 is a
path node `A` strictly inside the fence 1 (which it does not match), yet
`find_visible A` from the sibling fence 2 returns a node rather than the
`None` the claim requires — the equal path directly under node 2 is found. -/
theorem c6_fence_counterexample :
    c6run = Except.ok (c6s, 1, 2) ∧
      (c6s.get 1).fenced = true ∧
      (c6s.get 1).path_id = none ∧
      (c6s.get 4).parent = some 1 ∧
      (c6s.get 4).path_id = some pA ∧
      (c6s.get 1).parent = some 0 ∧
      (c6s.get 2).parent = some 0 ∧
      findVisible c6s 2 pA ≠ none := by
  refine ⟨by decide, by decide, by decide, by decide, by decide, by decide,
    by decide, by decide⟩

/-- C6, amended: `find_visible` from a node returns (when non-None) only a
frame of that node's ancestor chain or a direct child of such a frame — so a
node strictly inside a fenced sibling, being neither, is never itself
returned, although an equal path elsewhere may be (see the counterexample);
and from any node whose ancestor chain passes through a path node's parent,
`find_visible` for that path returns a non-None node. -/
theorem c6_fence_visibility_amended (s : Tree) (p : PathId) :
    (∀ (ids : List Nat) (S : List String) (v : Nat),
        findVisibleAux s p ids S = some v →
        v ∈ ids ∨ ∃ a ∈ ids, v ∈ (s.get a).children) ∧
      (∀ m dpar d, dpar ∈ ancestorIds s (s.nodes.length + 1) m →
        d ∈ (s.get dpar).children → (s.get d).path_id = some p →
        (findVisible s m p).isSome = true) := by
  constructor
  · exact findVisibleAux_locality s p
  · intro m dpar d h1 h2 h3
    unfold findVisible
    exact findVisibleAux_child_found s p _ [] dpar d h1 h2 h3

/-- Witness for C6's amended claim: inside the fence, the path node is
visible from the fence itself. -/
theorem c6_fence_visibility_amended_witness :
    (findVisible c6s 1 pA).isSome = true := by
  exact (c6_fence_visibility_amended c6s pA).2 1 1 4 (by decide) (by decide)
    (by decide)

/-- C2: in `attach_subtree`'s loop, when an unfenced incoming path
descendant `d` (its `parent_fence` is the incoming root) has a stripped path
that is not visible, matches no descendant of the attach target, and
resolves only through `find_unfenced` to an existing node `e` with an
`unnest_fence` crossed on the way, and the target fence `pf` has neither a
direct nor an in-branch child for the path, then the merge fails with the
invalid-scope-configuration error carrying both the offending node (the
incoming descendant's path-bearing parent, or the descendant itself) and
the pre-existing node `e`. -/
theorem c2_unnest_fence_error (fuel : Nat) (s : Tree)
    (self node d par e pf : Nat) (dns : List String) (pid0 : PathId)
    (hpath : (s.get d).path_id = some pid0)
    (hvis : findVisible s self (pid0.strip_namespace dns) = none)
    (hpf : parentFence s d = some node)
    (hdesc : findDescendantAndNs s self (pid0.strip_namespace dns) = (none, []))
    (hunf : findUnfenced s self (pid0.strip_namespace dns) = (some e, true))
    (hepf : parentFence s e = some pf)
    (hfc1 : findChild s pf (pid0.strip_namespace dns) false = none)
    (hfc2 : findChild s pf (pid0.strip_namespace dns) true = none)
    (hpar : (s.get d).parent = some par) :
    processOne (fuel + 1 + 1) s self node dns d =
      Except.error (Err.invalidScope
        (if (s.get par).path_id.isSome then par else d) e) := by
  unfold processOne
  rw [exec]
  dsimp only
  rw [hpath]
  dsimp only
  rw [hvis]
  dsimp only
  rw [hpf]
  simp only [beq_self_eq_true, if_true]
  rw [hdesc]
  dsimp only
  rw [hunf]
  dsimp only
  rw [hepf, exec]
  dsimp only
  rw [hfc1]
  simp only [Option.isNone_none, if_true, Bool.true_and]
  rw [hfc2]
  simp only [Option.isNone_none, if_true]
  rw [hpar]

/-- Witness for C2 on the concrete two-fence scenario: merging the unfenced
`A.b` into the `unnest_fence`-marked fence raises the error naming the
incoming chain's `A` node (5) and the pre-existing `A.b` node (2). -/
theorem c2_unnest_fence_error_witness :
    processOne 32 c2s 3 4 [] 6 =
      Except.error (Err.invalidScope 5 2) := by
  exact c2_unnest_fence_error 30 c2s 3 4 6 5 2 0 [] pAb (by decide) (by decide)
    (by decide) (by decide) (by decide) (by decide) (by decide) (by decide)
    (by decide)

/-- Lookup after a first-match store. -/
theorem lookup_store (l : List (Nat × NodeRec)) (i : Nat) (r : NodeRec)
    (j : Nat) :
    lookupRec (storeRec l i r) j =
      if j = i then some r else lookupRec l j := by
  induction l with
  | nil =>
    show (if i = j then some r else lookupRec [] j) = _
    by_cases h : j = i
    · rw [if_pos h.symm, if_pos h]
    · rw [if_neg (fun hh => h hh.symm), if_neg h]
  | cons kv t ih =>
    show lookupRec (if kv.1 = i then (i, r) :: t else kv :: storeRec t i r) j = _
    by_cases h1 : kv.1 = i
    · rw [if_pos h1]
      show (if i = j then some r else lookupRec t j) = _
      by_cases h2 : j = i
      · rw [if_pos h2.symm, if_pos h2]
      · rw [if_neg (fun hh => h2 hh.symm), if_neg h2]
        show lookupRec t j = (if kv.1 = j then some kv.2 else lookupRec t j)
        rw [if_neg (fun hh : kv.1 = j => h2 (by rw [← hh, h1]))]
    · rw [if_neg h1]
      show (if kv.1 = j then some kv.2 else lookupRec (storeRec t i r) j) = _
      by_cases h2 : kv.1 = j
      · rw [if_pos h2]
        have hji : ¬(j = i) := fun hh => h1 (by rw [h2, hh])
        rw [if_neg hji]
        show _ = (if kv.1 = j then some kv.2 else lookupRec t j)
        rw [if_pos h2]
      · rw [if_neg h2, ih]
        by_cases h3 : j = i
        · rw [if_pos h3, if_pos h3]
        · rw [if_neg h3, if_neg h3]
          show _ = (if kv.1 = j then some kv.2 else lookupRec t j)
          rw [if_neg h2]

/-- Reading back after a store. -/
theorem Tree.get_set (s : Tree) (i : Nat) (r : NodeRec) (j : Nat) :
    (s.set i r).get j = if j = i then r else s.get j := by
  unfold Tree.get Tree.set
  dsimp only
  rw [lookup_store]
  by_cases h : j = i
  · rw [if_pos h, if_pos h]
  · rw [if_neg h, if_neg h]

/-- A store that keeps a node's optional flag keeps every node's optional
flag. -/
theorem set_keep_optional (s : Tree) (i : Nat) (r : NodeRec) (j : Nat)
    (hr : r.optional = (s.get i).optional) :
    ((s.set i r).get j).optional = (s.get j).optional := by
  rw [Tree.get_set]
  by_cases h : j = i
  · subst h
    rw [if_pos rfl, hr]
  · rw [if_neg h]

/-- A store that keeps a node's path keeps every node's path. -/
theorem set_keep_path (s : Tree) (i : Nat) (r : NodeRec) (j : Nat)
    (hr : r.path_id = (s.get i).path_id) :
    ((s.set i r).get j).path_id = (s.get j).path_id := by
  rw [Tree.get_set]
  by_cases h : j = i
  · subst h
    rw [if_pos rfl, hr]
  · rw [if_neg h]

/-- Lookup distributes over appended heaps. -/
theorem lookup_append (l1 l2 : List (Nat × NodeRec)) (j : Nat) :
    lookupRec (l1 ++ l2) j =
      match lookupRec l1 j with
      | some r => some r
      | none => lookupRec l2 j := by
  induction l1 with
  | nil => rfl
  | cons kv t ih =>
    show (if kv.1 = j then some kv.2 else lookupRec (t ++ l2) j) = _
    by_cases h : kv.1 = j
    · rw [if_pos h]
      show _ = (match (if kv.1 = j then some kv.2 else lookupRec t j) with
        | some r => some r
        | none => lookupRec l2 j)
      rw [if_pos h]
    · rw [if_neg h, ih]
      show _ = (match (if kv.1 = j then some kv.2 else lookupRec t j) with
        | some r => some r
        | none => lookupRec l2 j)
      rw [if_neg h]

/-- Allocation preserves a set optional flag. -/
theorem alloc_keep_optional (s : Tree) (r : NodeRec) (j : Nat)
    (h : (s.get j).optional = true) :
    (((s.alloc r).1).get j).optional = true := by
  unfold Tree.alloc
  unfold Tree.get at h ⊢
  dsimp only
  rw [lookup_append]
  cases hl : lookupRec s.nodes j with
  | some q =>
    rw [hl] at h
    exact h
  | none =>
    rw [hl] at h
    cases h

/-- A children overwrite keeps every node's optional flag. -/
theorem updChildren_keep_optional (s : Tree) (i : Nat) (cs : List Nat)
    (j : Nat) :
    ((updChildren s i cs).get j).optional = (s.get j).optional :=
  set_keep_optional s i _ j rfl

/-- A parent overwrite keeps every node's optional flag. -/
theorem updParent_keep_optional (s : Tree) (i : Nat) (q : Option Nat)
    (j : Nat) :
    ((updParent s i q).get j).optional = (s.get j).optional :=
  set_keep_optional s i _ j rfl

/-- A children overwrite keeps every node's path. -/
theorem updChildren_keep_path (s : Tree) (i : Nat) (cs : List Nat) (j : Nat) :
    ((updChildren s i cs).get j).path_id = (s.get j).path_id :=
  set_keep_path s i _ j rfl

/-- A parent overwrite keeps every node's path. -/
theorem updParent_keep_path (s : Tree) (i : Nat) (q : Option Nat) (j : Nat) :
    ((updParent s i q).get j).path_id = (s.get j).path_id :=
  set_keep_path s i _ j rfl

/-- `_set_parent` touches only parent and children fields: every optional
flag is unchanged. -/
theorem setParent_keep_optional (s : Tree) (nid : Nat) (q : Option Nat)
    (j : Nat) :
    ((setParent s nid q).get j).optional = (s.get j).optional := by
  unfold setParent
  by_cases h0 : ((s.get nid).parent == q) = true
  · rw [if_pos h0]
  · rw [if_neg h0]
    cases hcur : (s.get nid).parent with
    | some p =>
      cases q with
      | some p2 =>
        simp only [updChildren_keep_optional, updParent_keep_optional]
      | none =>
        simp only [updChildren_keep_optional, updParent_keep_optional]
    | none =>
      cases q with
      | some p2 =>
        simp only [updChildren_keep_optional, updParent_keep_optional]
      | none =>
        simp only [updChildren_keep_optional, updParent_keep_optional]

/-- Binding an `ok` computation steps to the continuation. -/
theorem ebindOk {α β : Type} (a : α) (f : α → Except Err β) :
    (Except.ok a >>= f) = f a := rfl

/-- Binding an error short-circuits. -/
theorem ebindErr {α β : Type} (e : Err) (f : α → Except Err β) :
    ((Except.error e : Except Err α) >>= f) = Except.error e := rfl

/-- `pure` in the `Except` monad is `ok`. -/
theorem epureOk {α : Type} (a : α) : (pure a : Except Err α) = Except.ok a :=
  rfl

/-- A successful bind factors into a successful step and continuation. -/
theorem ebind_ok_destruct {α β : Type} {x : Except Err α}
    {f : α → Except Err β} {b : β} (h : (x >>= f) = .ok b) :
    ∃ a, x = .ok a ∧ f a = .ok b := by
  cases x with
  | error e =>
    rw [ebindErr] at h
    cases h
  | ok a =>
    rw [ebindOk] at h
    exact ⟨a, rfl, h⟩

/-- `_set_parent` keeps every node's path. -/
theorem setParent_keep_path (s : Tree) (nid : Nat) (q : Option Nat)
    (j : Nat) :
    ((setParent s nid q).get j).path_id = (s.get j).path_id := by
  unfold setParent
  by_cases h0 : ((s.get nid).parent == q) = true
  · rw [if_pos h0]
  · rw [if_neg h0]
    cases hcur : (s.get nid).parent with
    | some p =>
      cases q with
      | some p2 =>
        simp only [updChildren_keep_path, updParent_keep_path]
      | none =>
        simp only [updChildren_keep_path, updParent_keep_path]
    | none =>
      cases q with
      | some p2 =>
        simp only [updChildren_keep_path, updParent_keep_path]
      | none =>
        simp only [updChildren_keep_path, updParent_keep_path]

/-- Setting the optional flag somewhere sets it there. -/
theorem setOptionalTrue_get_self (s : Tree) (i : Nat) :
    ((setOptionalTrue s i).get i).optional = true := by
  unfold setOptionalTrue
  rw [Tree.get_set, if_pos rfl]

/-- Setting the optional flag somewhere never clears it elsewhere. -/
theorem setOptionalTrue_keep_true (s : Tree) (i j : Nat)
    (h : (s.get j).optional = true) :
    ((setOptionalTrue s i).get j).optional = true := by
  unfold setOptionalTrue
  rw [Tree.get_set]
  by_cases hj : j = i
  · rw [if_pos hj]
  · rw [if_neg hj]
    exact h

/-- A path rewrite keeps every node's optional flag. -/
theorem setPathId_keep_optional (s : Tree) (i : Nat) (p : Option PathId)
    (j : Nat) :
    ((setPathId s i p).get j).optional = (s.get j).optional := by
  unfold setPathId
  exact set_keep_optional s i _ j rfl

/-- A successful `remove_subtree` keeps every optional flag. -/
theorem removeSubtree_keep_optional (s : Tree) (a b : Nat) (s2 : Tree)
    (h : removeSubtree s a b = .ok s2) (j : Nat) :
    (s2.get j).optional = (s.get j).optional := by
  unfold removeSubtree at h
  by_cases hc : ((s.get a).children.contains b) = true
  · rw [if_pos hc] at h
    cases h
    exact setParent_keep_optional s b none j
  · rw [if_neg hc] at h
    cases h

/-- A successful `remove` keeps every optional flag. -/
theorem removeNode_keep_optional (s : Tree) (n : Nat) (s2 : Tree)
    (h : removeNode s n = .ok s2) (j : Nat) :
    (s2.get j).optional = (s.get j).optional := by
  unfold removeNode at h
  cases hp : (s.get n).parent with
  | none =>
    rw [hp] at h
    cases h
    rfl
  | some p =>
    rw [hp] at h
    exact removeSubtree_keep_optional s p n s2 h j

/-- A successful `remove_subtree` keeps every path. -/
theorem removeSubtree_keep_path (s : Tree) (a b : Nat) (s2 : Tree)
    (h : removeSubtree s a b = .ok s2) (j : Nat) :
    (s2.get j).path_id = (s.get j).path_id := by
  unfold removeSubtree at h
  by_cases hc : ((s.get a).children.contains b) = true
  · rw [if_pos hc] at h
    cases h
    exact setParent_keep_path s b none j
  · rw [if_neg hc] at h
    cases h

/-- A successful `remove` keeps every path. -/
theorem removeNode_keep_path (s : Tree) (n : Nat) (s2 : Tree)
    (h : removeNode s n = .ok s2) (j : Nat) :
    (s2.get j).path_id = (s.get j).path_id := by
  unfold removeNode at h
  cases hp : (s.get n).parent with
  | none =>
    rw [hp] at h
    cases h
    rfl
  | some p =>
    rw [hp] at h
    exact removeSubtree_keep_path s p n s2 h j

/-- A successful `attach_child` keeps every optional flag. -/
theorem attachChild_keep_optional (s : Tree) (a b : Nat) (s2 : Tree)
    (h : attachChild s a b = .ok s2) (j : Nat) :
    (s2.get j).optional = (s.get j).optional := by
  unfold attachChild at h
  by_cases h1 : ((s.get b).path_id.isSome &&
      (s.get a).children.any
        (fun c => (s.get c).path_id == (s.get b).path_id)) = true
  · rw [if_pos h1] at h
    cases h
  · rw [if_neg h1] at h
    by_cases h2 : ((s.get b).unique_id.isSome &&
        (s.get a).children.any
          (fun c => (s.get c).unique_id == (s.get b).unique_id)) = true
    · rw [if_pos h2] at h
      cases h
      rfl
    · rw [if_neg h2] at h
      cases h
      exact setParent_keep_optional s b (some a) j

/-- A successful effectful fold of flag-preserving steps preserves every
optional flag. -/
theorem foldlM_keep_optional (f : Tree → Nat → Except Err Tree)
    (hf : ∀ st c st2, f st c = .ok st2 →
      ∀ j, (st2.get j).optional = (st.get j).optional) :
    ∀ (l : List Nat) (st st2 : Tree), List.foldlM f st l = .ok st2 →
      ∀ j, (st2.get j).optional = (st.get j).optional := by
  intro l
  induction l with
  | nil =>
    intro st st2 h j
    have h2 : (pure st : Except Err Tree) = .ok st2 := h
    rw [epureOk] at h2
    cases h2
    rfl
  | cons c t ih =>
    intro st st2 h j
    have h2 : (f st c >>= fun s3 => List.foldlM f s3 t) = .ok st2 := h
    obtain ⟨s3, hc, hrest⟩ := ebind_ok_destruct h2
    rw [ih s3 st2 hrest j, hf st c s3 hc j]

/-- `remove_descendants` keeps every optional flag. -/
theorem removeDescendants_keep_optional (s : Tree) (a : Nat) (p : PathId)
    (s2 : Tree) (h : removeDescendants s a p = .ok s2) (j : Nat) :
    (s2.get j).optional = (s.get j).optional := by
  unfold removeDescendants at h
  exact foldlM_keep_optional _
    (fun st c st2 hh jj => removeNode_keep_optional st c st2 hh jj)
    _ s s2 h j

/-- The namespace-stripping pass of `attach_subtree`'s final loop keeps
every optional flag. -/
theorem stripDescNs_keep_optional (s : Tree) (nodeNs : List String)
    (top : Nat) (j : Nat) :
    ((stripDescNs s nodeNs top).get j).optional = (s.get j).optional := by
  unfold stripDescNs
  generalize descendantIds s (s.nodes.length + 1) top = l
  induction l generalizing s with
  | nil => rfl
  | cons d t ih =>
    rw [List.foldl_cons]
    rw [ih]
    cases hp : (s.get d).path_id with
    | none => rfl
    | some pid =>
      dsimp only
      by_cases hns : (!pid.ns.isEmpty) = true
      · rw [if_pos hns]
        exact setPathId_keep_optional s d _ j
      · rw [if_neg hns]

/-- No operation of the reconciliation cluster ever clears an optional
flag: whenever `attach_subtree`/`fuse_subtree` (or any stage of their loop)
succeeds, every node whose flag was set still has it set. -/
theorem exec_keep_optional_true :
    ∀ (fuel : Nat) (t : Task) (sf : Tree), exec fuel t = .ok sf →
      ∀ j, ((taskState t).get j).optional = true → (sf.get j).optional = true := by
  intro fuel
  induction fuel with
  | zero =>
    intro t sf h
    rw [exec] at h
    cases h
  | succ fuel ih =>
    intro t sf h j hj
    cases t with
    | attach s self node =>
      dsimp only [taskState] at hj
      rw [exec] at h
      try dsimp only at h
      by_cases hwrap : ((s.get node).path_id.isSome) = true
      · rw [if_pos hwrap] at h
        obtain ⟨s2, hac, h⟩ := ebind_ok_destruct h
        try dsimp only at h
        rw [epureOk, ebindOk] at h
        try dsimp only at h
        obtain ⟨s3, hl, h⟩ := ebind_ok_destruct h
        try dsimp only at h
        have k1 : ((s.alloc (NodeRec.new none true)).1.get j).optional = true :=
          alloc_keep_optional s _ j hj
        have k2 : (s2.get j).optional = true := by
          rw [attachChild_keep_optional _ _ _ _ hac j]
          exact k1
        have k3 : (s3.get j).optional = true := ih _ s3 hl j k2
        exact ih _ sf h j k3
      · rw [if_neg hwrap] at h
        rw [epureOk, ebindOk] at h
        try dsimp only at h
        obtain ⟨s3, hl, h⟩ := ebind_ok_destruct h
        try dsimp only at h
        have k3 : (s3.get j).optional = true := ih _ s3 hl j hj
        exact ih _ sf h j k3
    | level s self node dns kids =>
      dsimp only [taskState] at hj
      cases kids with
      | nil =>
        rw [exec] at h
        have h2 : Except.ok s = Except.ok sf := h
        cases h2
        exact hj
      | cons c rest =>
        rw [exec] at h
        try dsimp only at h
        by_cases hp : ((s.get c).path_id.isSome) = true
        · rw [if_pos hp] at h
          obtain ⟨s1, h1, h⟩ := ebind_ok_destruct h
          try dsimp only at h
          obtain ⟨s2, h2, h⟩ := ebind_ok_destruct h
          try dsimp only at h
          have k1 : (s1.get j).optional = true := ih _ s1 h1 j hj
          have k2 : (s2.get j).optional = true := ih _ s2 h2 j k1
          exact ih _ sf h j k2
        · rw [if_neg hp] at h
          rw [epureOk, ebindOk] at h
          try dsimp only at h
          obtain ⟨s2, h2, h⟩ := ebind_ok_destruct h
          try dsimp only at h
          have k2 : (s2.get j).optional = true := ih _ s2 h2 j hj
          exact ih _ sf h j k2
    | one s self node dns d =>
      dsimp only [taskState] at hj
      rw [exec] at h
      try dsimp only at h
      cases hp : (s.get d).path_id with
      | none =>
        rw [hp] at h
        have h2 : Except.ok s = Except.ok sf := h
        cases h2
        exact hj
      | some pid0 =>
        rw [hp] at h
        try dsimp only at h
        cases hv : findVisible s self (pid0.strip_namespace dns) with
        | some visible =>
          rw [hv] at h
          try dsimp only at h
          obtain ⟨s1, h1, h⟩ := ebind_ok_destruct h
          try dsimp only at h
          rw [epureOk] at h
          cases h
          have k1 : (s1.get j).optional = true := by
            rw [removeNode_keep_optional s d s1 h1 j]
            exact hj
          by_cases ho : ((s1.get d).optional) = true
          · rw [if_pos ho]
            exact setOptionalTrue_keep_true s1 visible j k1
          · rw [if_neg ho]
            exact k1
        | none =>
          rw [hv] at h
          try dsimp only at h
          by_cases hc : ((parentFence s d == some node)) = true
          · rw [if_pos hc] at h
            cases hfd : (findDescendantAndNs s self
                (pid0.strip_namespace dns)).1 with
            | some existing =>
              rw [hfd] at h
              exact ih _ sf h j hj
            | none =>
              rw [hfd] at h
              try dsimp only at h
              cases hfu : (findUnfenced s self (pid0.strip_namespace dns)).1 with
              | some existing =>
                rw [hfu] at h
                exact ih _ sf h j hj
              | none =>
                rw [hfu] at h
                have h2 : Except.ok s = Except.ok sf := h
                cases h2
                exact hj
          · rw [if_neg hc] at h
            have h2 : Except.ok s = Except.ok sf := h
            cases h2
            exact hj
    | handle s node d pid existing existingNs unnest pfOpt =>
      dsimp only [taskState] at hj
      cases pfOpt with
      | none =>
        rw [exec] at h
        cases h
      | some pf =>
        rw [exec] at h
        try dsimp only at h
        by_cases hN : ((findChild s pf pid false).isNone) = true
        · rw [if_pos hN] at h
          by_cases hU : (unnest && (findChild s pf pid true).isNone) = true
          · rw [if_pos hU] at h
            cases hpar : (s.get d).parent with
            | none =>
              rw [hpar] at h
              have h2 : (Except.error Err.attrErr : Except Err Tree) =
                Except.ok sf := h
              cases h2
            | some par =>
              rw [hpar] at h
              have h2 : (Except.error (Err.invalidScope
                  (if (s.get par).path_id.isSome = true then par else d)
                  existing) : Except Err Tree) = Except.ok sf := h
              cases h2
          · rw [if_neg hU] at h
            obtain ⟨s1, h1, h⟩ := ebind_ok_destruct h
            try dsimp only at h
            obtain ⟨s2, h2, h⟩ := ebind_ok_destruct h
            try dsimp only at h
            have k2 : (s2.get j).optional = true := by
              rw [attachChild_keep_optional _ _ _ _ h2 j,
                setPathId_keep_optional,
                removeDescendants_keep_optional s pf pid s1 h1 j]
              exact hj
            exact ih _ sf h j k2
        · rw [if_neg hN] at h
          exact ih _ sf h j hj
    | fuse s self node =>
      dsimp only [taskState] at hj
      rw [exec] at h
      try dsimp only at h
      obtain ⟨s1, h1, h⟩ := ebind_ok_destruct h
      try dsimp only at h
      have k1 : (s1.get j).optional = true := by
        rw [removeNode_keep_optional s node s1 h1 j]
        exact hj
      by_cases hp : ((s1.get node).path_id.isSome) = true
      · rw [if_pos hp] at h
        obtain ⟨s3, h3, h⟩ := ebind_ok_destruct h
        try dsimp only at h
        have k2 : ((if (s1.get node).optional = true
            then setOptionalTrue s1 self else s1).get j).optional = true := by
          by_cases ho : ((s1.get node).optional) = true
          · rw [if_pos ho]
            exact setOptionalTrue_keep_true s1 self j k1
          · rw [if_neg ho]
            exact k1
        have k3 : (s3.get j).optional = true := by
          rw [foldlM_keep_optional _
            (fun st c st2 hh jj => attachChild_keep_optional st _ c st2 hh jj)
            _ _ s3 h3 j]
          exact alloc_keep_optional _ _ j k2
        exact ih _ sf h j k3
      · rw [if_neg hp] at h
        exact ih _ sf h j k1
    | reattach s self node rem =>
      dsimp only [taskState] at hj
      cases rem with
      | nil =>
        rw [exec] at h
        have h2 : Except.ok s = Except.ok sf := h
        cases h2
        exact hj
      | cons c rest =>
        rw [exec] at h
        try dsimp only at h
        obtain ⟨s1, h1, h⟩ := ebind_ok_destruct h
        try dsimp only at h
        have k1 : (s1.get j).optional = true := by
          rw [attachChild_keep_optional _ _ _ _ h1 j, stripDescNs_keep_optional]
          exact hj
        exact ih _ sf h j k1

/-- C8: optionality is OR-accumulated and never lost across merges.
First conjunct: when `attach_subtree`'s loop discards an incoming optional
descendant whose stripped path is already visible at `v`, the surviving
node `v` ends up optional.  Second conjunct: when `fuse_subtree` merges an
optional path node into `self`, `self` ends up optional.  Third and fourth
conjuncts: a successful `attach_subtree` or `fuse_subtree` never clears any
node's already-set optional flag. -/
theorem c8_optional_accumulation :
    (∀ (fuel : Nat) (s : Tree) (self node : Nat) (dns : List String)
        (d : Nat) (pid0 : PathId) (v : Nat) (sf : Tree),
      (s.get d).path_id = some pid0 →
      findVisible s self (pid0.strip_namespace dns) = some v →
      (s.get d).optional = true →
      processOne (fuel + 1) s self node dns d = .ok sf →
      (sf.get v).optional = true) ∧
    (∀ (fuel : Nat) (s : Tree) (self node : Nat) (sf : Tree),
      (s.get node).path_id.isSome = true →
      (s.get node).optional = true →
      fuseSubtree (fuel + 1) s self node = .ok sf →
      (sf.get self).optional = true) ∧
    (∀ (fuel : Nat) (s : Tree) (self node : Nat) (sf : Tree),
      attachSubtree fuel s self node = .ok sf →
      ∀ j, (s.get j).optional = true → (sf.get j).optional = true) ∧
    (∀ (fuel : Nat) (s : Tree) (self node : Nat) (sf : Tree),
      fuseSubtree fuel s self node = .ok sf →
      ∀ j, (s.get j).optional = true → (sf.get j).optional = true) := by
  refine ⟨?_, ?_, ?_, ?_⟩
  · intro fuel s self node dns d pid0 v sf hpath hvis hopt h
    unfold processOne at h
    rw [exec] at h
    try dsimp only at h
    rw [hpath] at h
    try dsimp only at h
    rw [hvis] at h
    try dsimp only at h
    obtain ⟨s1, h1, h⟩ := ebind_ok_destruct h
    try dsimp only at h
    rw [epureOk] at h
    cases h
    have k1 : (s1.get d).optional = true := by
      rw [removeNode_keep_optional s d s1 h1 d]
      exact hopt
    rw [if_pos k1]
    exact setOptionalTrue_get_self s1 v
  · intro fuel s self node sf hp hopt h
    unfold fuseSubtree at h
    rw [exec] at h
    try dsimp only at h
    obtain ⟨s1, h1, h⟩ := ebind_ok_destruct h
    try dsimp only at h
    have hp1 : (s1.get node).path_id.isSome = true := by
      rw [removeNode_keep_path s node s1 h1 node]
      exact hp
    rw [if_pos hp1] at h
    obtain ⟨s3, h3, h⟩ := ebind_ok_destruct h
    try dsimp only at h
    have ho1 : (s1.get node).optional = true := by
      rw [removeNode_keep_optional s node s1 h1 node]
      exact hopt
    have k2 : ((if (s1.get node).optional = true
        then setOptionalTrue s1 self else s1).get self).optional = true := by
      rw [if_pos ho1]
      exact setOptionalTrue_get_self s1 self
    have k3 : (s3.get self).optional = true := by
      rw [foldlM_keep_optional _
        (fun st c st2 hh jj => attachChild_keep_optional st _ c st2 hh jj)
        _ _ s3 h3 self]
      exact alloc_keep_optional _ _ self k2
    exact exec_keep_optional_true fuel _ sf h self k3
  · intro fuel s self node sf h j hj
    exact exec_keep_optional_true fuel _ sf h j hj
  · intro fuel s self node sf h j hj
    exact exec_keep_optional_true fuel _ sf h j hj

/-- Witness for C8: the discard part on `c8t` propagates the incoming
optional flag onto the visible node 1, and the fuse part on `c8s` sets the
survivor node 0 optional. -/
theorem c8_optional_accumulation_witness :
    processOne 8 c8t 0 2 [] 3 = Except.ok c8tFinal ∧
      (c8tFinal.get 1).optional = true ∧
      fuseSubtree 8 c8s 0 1 = Except.ok c8sFinal ∧
      (c8sFinal.get 0).optional = true := by
  refine ⟨by decide, ?_, by decide, ?_⟩
  · exact c8_optional_accumulation.1 7 c8t 0 2 [] 3 pA 1 c8tFinal (by decide)
      (by decide) (by decide) (by decide)
  · exact c8_optional_accumulation.2.1 7 c8s 0 1 c8sFinal (by decide)
      (by decide) (by decide)

end ScopeTree
